import Mathlib

/-!
Verification of the canteen-ordering core of `src/app.py` (a Flask + SQLAlchemy
backend).  The data model and operations below are a shallow embedding of the
source: SQLAlchemy rows become Lean structures, the database session becomes an
explicit `DB` value threaded through each request handler, timestamps become a
`now : Nat` parameter (the source calls `datetime.utcnow`), and `socketio.emit`
calls become entries in an effect trace.  The unit price column is a Python
float in the source; no CORE operation performs arithmetic on it, so it is
modelled as an exact rational carried along unchanged.
-/

/-- Row of the `CanteenItem` table (src/app.py lines 52-58): id, name, price,
availability flag (default `True`), quantity (default `0`), update timestamp. -/
structure CanteenItem where
  id : Nat
  name : String
  price : Rat
  available : Bool
  quantity : Int
  updated_at : Nat
  deriving Repr, DecidableEq

/-- Row of the `CanteenOrder` table (src/app.py lines 60-66). -/
structure CanteenOrder where
  id : Nat
  student_id : Nat
  item_id : Nat
  quantity : Int
  status : String
  created_at : Nat
  deriving Repr, DecidableEq

/-- Value inside a SocketIO JSON payload.  `itemObj` models the nested
`{"id", "name", "price", "quantity", "available"}` object emitted by
`add_menu_item` (src/app.py line 192). -/
inductive JVal where
  | s (v : String)
  | i (v : Int)
  | b (v : Bool)
  | itemObj (id : Nat) (name : String) (price : Rat) (quantity : Int) (available : Bool)
  deriving Repr, DecidableEq

/-- One `socketio.emit(event, payload)` call: event name plus the payload
dictionary as an ordered key/value list. -/
structure Emit where
  event : String
  payload : List (String × JVal)
  deriving Repr, DecidableEq

/-- Observable effect of a request handler, in the order the source performs
them: a committed append to the order ledger, or a SocketIO broadcast. -/
inductive Effect where
  | appendOrder (o : CanteenOrder)
  | emitEvent (e : Emit)
  deriving Repr, DecidableEq

/-- The database state: the two CORE tables plus their autoincrement
counters. -/
structure DB where
  items : List CanteenItem
  orders : List CanteenOrder
  nextItemId : Nat
  nextOrderId : Nat
  deriving Repr, DecidableEq

/-- An error response: HTTP status code and the `msg` field of the JSON body. -/
structure ErrResponse where
  status : Nat
  msg : String
  deriving Repr, DecidableEq

instance {ε α : Type} [DecidableEq ε] [DecidableEq α] : DecidableEq (Except ε α) :=
  fun a b =>
    match a, b with
    | .ok x, .ok y =>
      if h : x = y then isTrue (by rw [h]) else isFalse (by simp [h])
    | .error x, .error y =>
      if h : x = y then isTrue (by rw [h]) else isFalse (by simp [h])
    | .ok _, .error _ => isFalse (by simp)
    | .error _, .ok _ => isFalse (by simp)

/-- Result of a request handler: the HTTP response (`ok` carries the returned
id), the database state after the request, and the trace of effects. -/
structure Outcome where
  response : Except ErrResponse Nat
  db : DB
  trace : List Effect
  deriving Repr, DecidableEq

/-- Error returned when `item_id` is missing (or `0`, which is falsy in
Python): src/app.py lines 208-209. -/
def itemIdRequiredErr : ErrResponse := ⟨400, "item_id required"⟩

/-- The single error returned by `place_order` both when the item does not
exist and when it is unavailable or has insufficient quantity
(src/app.py lines 211-212). -/
def notAvailableErr : ErrResponse := ⟨400, "item not available or insufficient quantity"⟩

/-- `CanteenItem.query.get(item_id)`: primary-key lookup (src/app.py line 210).
The request's `item_id` is an arbitrary integer; stored ids are naturals. -/
def getItem (db : DB) (iid : Int) : Option CanteenItem :=
  db.items.find? (fun it => (it.id : Int) = iid)

/-- The in-place mutation of src/app.py lines 214-216: `item.quantity -= qty;
if item.quantity <= 0: item.available = False`, with the `onupdate` refresh of
`updated_at`. -/
def decrementItem (item : CanteenItem) (qty : Int) (now : Nat) : CanteenItem :=
  let newQty := item.quantity - qty
  { item with
      quantity := newQty
      available := if newQty ≤ 0 then false else item.available
      updated_at := now }

/-- The `db.session.commit()` of src/app.py line 219 for an admitted order:
writes the mutated item row back and inserts the new `CanteenOrder` row with
autoassigned id and status `"placed"` (line 217).  Returns the new state and
the inserted order. -/
def commitWrite (db : DB) (student_id : Nat) (item' : CanteenItem) (qty : Int)
    (now : Nat) : DB × CanteenOrder :=
  let order : CanteenOrder :=
    { id := db.nextOrderId, student_id := student_id, item_id := item'.id
      quantity := qty, status := "placed", created_at := now }
  ({ db with
      items := db.items.map (fun it => if it.id = item'.id then item' else it)
      orders := db.orders ++ [order]
      nextOrderId := db.nextOrderId + 1 }, order)

/-- `place_order` (src/app.py lines 201-221).  `student_id` is the JWT
identity; `item_id?`/`quantity?` are the optional JSON fields (`quantity`
defaults to `1`).  On success the response is `ok order.id` (HTTP 201) and the
trace records the ledger commit followed by the `canteen_update` broadcast of
line 220, whose payload carries exactly the keys `action`, `item_id` and
`new_quantity`. -/
def place_order (db : DB) (now : Nat) (student_id : Nat)
    (item_id? : Option Int) (quantity? : Option Int) : Outcome :=
  let qty : Int := quantity?.getD 1
  match item_id? with
  | none => ⟨.error itemIdRequiredErr, db, []⟩
  | some iid =>
    if iid = 0 then ⟨.error itemIdRequiredErr, db, []⟩
    else
      match getItem db iid with
      | none => ⟨.error notAvailableErr, db, []⟩
      | some item =>
        if !item.available || decide (item.quantity < qty) then
          ⟨.error notAvailableErr, db, []⟩
        else
          let item' := decrementItem item qty now
          let (db', order) := commitWrite db student_id item' qty now
          ⟨.ok order.id, db',
            [.appendOrder order,
             .emitEvent ⟨"canteen_update",
               [("action", JVal.s "order"),
                ("item_id", JVal.i (item'.id : Int)),
                ("new_quantity", JVal.i item'.quantity)]⟩]⟩

/-- `add_menu_item` (src/app.py lines 178-193).  The JSON fields `price`,
`quantity` and `available` default to `0.0`, `0` and `True`; `name` is
required, and an absent or empty name is rejected (Python `if not name:`).
The new row is committed and then broadcast with action `"add"`. -/
def add_menu_item (db : DB) (now : Nat) (name? : Option String) (price? : Option Rat)
    (quantity? : Option Int) (available? : Option Bool) : Outcome :=
  let price := price?.getD 0
  let quantity := quantity?.getD 0
  let available := available?.getD true
  match name? with
  | none => ⟨.error ⟨400, "name required"⟩, db, []⟩
  | some name =>
    if name = "" then ⟨.error ⟨400, "name required"⟩, db, []⟩
    else
      let item : CanteenItem :=
        { id := db.nextItemId, name := name, price := price
          available := available, quantity := quantity, updated_at := now }
      let db' := { db with items := db.items ++ [item], nextItemId := db.nextItemId + 1 }
      ⟨.ok item.id, db',
        [.emitEvent ⟨"canteen_update",
          [("action", JVal.s "add"),
           ("item", JVal.itemObj item.id item.name item.price item.quantity item.available)]⟩]⟩

/-- One entry of the JSON list returned by `order_history`
(src/app.py lines 228-237): the `item` field is `{"id", "name"}` of the
referenced catalog item, or `None` when the item row is gone. -/
structure OrderSummary where
  order_id : Nat
  item : Option (Nat × String)
  quantity : Int
  status : String
  created_at : Nat
  deriving Repr, DecidableEq

/-- Projection of one ledger row to its summary (src/app.py lines 229-237). -/
def orderSummary (db : DB) (o : CanteenOrder) : OrderSummary :=
  { order_id := o.id
    item := (db.items.find? (fun it => it.id = o.item_id)).map (fun it => (it.id, it.name))
    quantity := o.quantity
    status := o.status
    created_at := o.created_at }

/-- Comparison used by `ORDER BY created_at DESC`: earlier list position means
a later (or equal) creation timestamp. -/
def newestFirst (a b : CanteenOrder) : Prop := b.created_at ≤ a.created_at

instance : DecidableRel newestFirst := fun a b => Nat.decLe b.created_at a.created_at

instance : IsTotal CanteenOrder newestFirst :=
  ⟨fun a b => Nat.le_total b.created_at a.created_at⟩

instance : IsTrans CanteenOrder newestFirst :=
  ⟨fun _ _ _ h1 h2 => Nat.le_trans h2 h1⟩

/-- `order_history` (src/app.py lines 223-238):
`CanteenOrder.query.filter_by(student_id=...).order_by(created_at.desc())`,
then each row mapped to its summary.  SQL does not fix the order of rows with
equal timestamps, so any sort consistent with `newestFirst` is faithful. -/
def order_history (db : DB) (student_id : Nat) : List OrderSummary :=
  (List.insertionSort newestFirst
      (db.orders.filter (fun o => o.student_id == student_id))).map (orderSummary db)

/-!
Concurrency model for `place_order`.  The source runs under eventlet
(`async_mode="eventlet"`, src/app.py line 30): each request is a green thread
that yields at I/O points.  Inside `place_order` the two I/O points are the
`CanteenItem.query.get` read (line 210) and the `db.session.commit()` write
(line 219); the check and the in-memory mutation between them are pure Python
and run without yielding.  A thread is therefore a two-phase program:
`ready` (about to read), `pend item'` (read done, check passed, mutated row
held in the session, commit not yet run), `done` (response sent).  No lock or
atomic compare-and-update protects the read-check-write sequence anywhere in
the source, so any interleaving of these phases across threads is possible.
-/

/-- Phase of one in-flight `place_order` request. -/
inductive TState where
  | ready
  | pend (item' : CanteenItem)
  | done (res : Except ErrResponse Nat)
  deriving Repr, DecidableEq

/-- One concurrent `place_order` request: its JWT identity, its JSON
arguments, and its current phase. -/
structure Thread where
  student_id : Nat
  item_id : Int
  qty : Int
  st : TState
  deriving Repr, DecidableEq

/-- Runs the next phase of one thread against the shared database.  The
`ready` step is exactly the read-and-check of src/app.py lines 210-216 (it
mutates only the thread's session copy); the `pend` step is exactly the
commit of lines 217-219 (`commitWrite`, shared with `place_order`). -/
def stepThread (db : DB) (now : Nat) (t : Thread) : DB × Thread :=
  match t.st with
  | .ready =>
    match getItem db t.item_id with
    | none => (db, { t with st := .done (.error notAvailableErr) })
    | some item =>
      if !item.available || decide (item.quantity < t.qty) then
        (db, { t with st := .done (.error notAvailableErr) })
      else
        (db, { t with st := .pend (decrementItem item t.qty now) })
  | .pend item' =>
    let (db', order) := commitWrite db t.student_id item' t.qty now
    (db', { t with st := .done (.ok order.id) })
  | .done _ => (db, t)

/-- Executes a schedule: at each step the named thread runs its next phase.
Indices without a thread are skipped. -/
def runSched (now : Nat) : DB → List Thread → List Nat → DB × List Thread
  | db, ts, [] => (db, ts)
  | db, ts, i :: rest =>
    match ts[i]? with
    | none => runSched now db ts rest
    | some t =>
      let (db', t') := stepThread db now t
      runSched now db' (ts.set i t') rest

/-- Keys of all SocketIO payloads emitted in a handler's trace, in order. -/
def emittedKeys (r : Outcome) : List String :=
  r.trace.foldr
    (fun ef acc =>
      match ef with
      | .emitEvent e => e.payload.map Prod.fst ++ acc
      | .appendOrder _ => acc) []

/-- A catalog with one item `{id: 1, quantity: 5, available: true}`: the state
of the spec's main scenario. -/
def sampleDB : DB := ⟨[⟨1, "samosa", 10, true, 5, 0⟩], [], 2, 1⟩

/-- A catalog with one item `{id: 1, quantity: 2, available: true}`. -/
def lowStockDB : DB := ⟨[⟨1, "tea", 5, true, 2, 0⟩], [], 2, 1⟩

/-- Primary-key lookup after the row write-back of `commitWrite`: the first
row matching the ordered id is the freshly written one. -/
theorem find?_map_update (items : List CanteenItem) (iid : Int) (item item' : CanteenItem)
    (hfind : items.find? (fun it => (it.id : Int) = iid) = some item)
    (hid : item'.id = item.id) :
    (items.map (fun it => if it.id = item'.id then item' else it)).find?
        (fun it => (it.id : Int) = iid) = some item' := by
  induction items with
  | nil => simp [List.find?] at hfind
  | cons hd tl ih =>
    by_cases hp : ((hd.id : Int) = iid)
    · rw [List.find?_cons_of_pos _ (by simpa using hp)] at hfind
      have hhd : hd = item := by simpa using hfind
      subst hhd
      have : (if hd.id = item'.id then item' else hd) = item' := by
        rw [if_pos (by rw [hid])]
      simp only [List.map_cons, this]
      rw [List.find?_cons_of_pos _ (by simpa [hid] using hp)]
    · rw [List.find?_cons_of_neg _ (by simpa using hp)] at hfind
      have hne : ¬(hd.id = item'.id) := by
        intro hcontra
        apply hp
        rw [hcontra, hid]
        have := List.find?_some hfind
        simpa using this
      simp only [List.map_cons, if_neg hne]
      rw [List.find?_cons_of_neg _ (by simpa using hp)]
      exact ih hfind

/-- Model-fidelity lemma: a single `place_order` request run to completion
through the two-phase thread model (read step, then commit step, with no other
thread interleaved) produces exactly the database and response of the direct
`place_order` function. -/
theorem runSched_single_eq_place_order (db : DB) (now student_id : Nat) (iid qty : Int)
    (h : iid ≠ 0) :
    (runSched now db [⟨student_id, iid, qty, TState.ready⟩] [0, 0]).1
        = (place_order db now student_id (some iid) (some qty)).db ∧
    (runSched now db [⟨student_id, iid, qty, TState.ready⟩] [0, 0]).2.map (fun t => t.st)
        = [TState.done (place_order db now student_id (some iid) (some qty)).response] := by
  cases hg : getItem db iid with
  | none =>
    simp [runSched, stepThread, place_order, hg, h]
  | some item =>
    by_cases hc : (!item.available || decide (item.quantity < qty)) = true
    · simp [runSched, stepThread, place_order, hg, hc, h]
    · simp [runSched, stepThread, place_order, hg, hc, h, commitWrite]

/-- C1 (status: code_bug).  The spec requires the read-check-write of
`place_order` to be atomic per item so that two concurrent decrements never
jointly oversell.  The source has no lock or atomic update: with one item of
quantity 5 and two concurrent orders of quantity 3 each, the interleaving
read-read-commit-commit admits both.  Both requests get a success response,
the ledger records reservations summing to 6 > 5, and the stored quantity
ends at 2 (the second commit overwrites the first). -/
theorem race_two_orders_both_succeed :
    sampleDB.items.map (fun it => it.quantity) = [5] ∧
    (runSched 1 sampleDB [⟨7, 1, 3, TState.ready⟩, ⟨8, 1, 3, TState.ready⟩]
        [0, 1, 0, 1]).2.map (fun t => t.st)
      = [TState.done (.ok 1), TState.done (.ok 2)] ∧
    ((runSched 1 sampleDB [⟨7, 1, 3, TState.ready⟩, ⟨8, 1, 3, TState.ready⟩]
        [0, 1, 0, 1]).1.orders.map (fun o => o.quantity)).sum = 6 ∧
    (runSched 1 sampleDB [⟨7, 1, 3, TState.ready⟩, ⟨8, 1, 3, TState.ready⟩]
        [0, 1, 0, 1]).1.items.map (fun it => it.quantity) = [2] ∧
    ¬((6 : Int) ≤ 5) := by
  decide

/-- C7 (status: confirmed).  Scenario: item `{id: 1, quantity: 5,
available: true}`; an order of quantity 3 succeeds with order id 1, the item
becomes `{quantity: 2, available: true}`, and the ledger holds exactly one
entry with quantity 3 and status `"placed"`. -/
theorem scenario_item5_order3 :
    (place_order sampleDB 3 7 (some 1) (some 3)).response = .ok 1 ∧
    (place_order sampleDB 3 7 (some 1) (some 3)).db.items
      = [⟨1, "samosa", 10, true, 2, 3⟩] ∧
    (place_order sampleDB 3 7 (some 1) (some 3)).db.orders
      = [⟨1, 7, 1, 3, "placed", 3⟩] := by
  decide

/-- C10 (status: confirmed).  `add_menu_item` with no `quantity` and no
`available` in the request body defaults quantity to 0 and the availability
flag to `True`, so the invariant `available == (quantity > 0)` is violated on
the freshly created row. -/
theorem add_menu_item_defaults_violate_invariant (db : DB) (now : Nat) (n : String)
    (price? : Option Rat) (h : ¬(n = "")) :
    (add_menu_item db now (some n) price? none none).db.items
      = db.items ++ [⟨db.nextItemId, n, price?.getD 0, true, 0, now⟩] ∧
    (add_menu_item db now (some n) price? none none).response = .ok db.nextItemId ∧
    ((true : Bool) = decide ((0 : Int) < 0) → False) := by
  refine ⟨?_, ?_, by decide⟩ <;> simp [add_menu_item, h]

/-- Witness for `add_menu_item_defaults_violate_invariant` at a concrete
input: an empty catalog, name `"tea"`, no price. -/
theorem add_menu_item_defaults_violate_invariant_witness :
    (add_menu_item ⟨[], [], 1, 1⟩ 0 (some "tea") none none none).db.items
      = [⟨1, "tea", 0, true, 0, 0⟩] ∧
    (add_menu_item ⟨[], [], 1, 1⟩ 0 (some "tea") none none none).response = .ok 1 ∧
    ((true : Bool) = decide ((0 : Int) < 0) → False) :=
  add_menu_item_defaults_violate_invariant ⟨[], [], 1, 1⟩ 0 "tea" none (by decide)

/-- C2 (status: confirmed).  Every failing `place_order` request is a no-op:
the database (catalog rows and ledger) is returned unchanged and no ledger
append or broadcast effect occurs.  All error returns in
src/app.py lines 208-212 happen before any mutation. -/
theorem failed_place_order_is_noop (db : DB) (now student_id : Nat)
    (item_id? quantity? : Option Int) (e : ErrResponse)
    (h : (place_order db now student_id item_id? quantity?).response = .error e) :
    (place_order db now student_id item_id? quantity?).db = db ∧
    (place_order db now student_id item_id? quantity?).trace = [] := by
  cases item_id? with
  | none => exact ⟨rfl, rfl⟩
  | some iid =>
    by_cases h0 : iid = 0
    · subst h0
      simp [place_order]
    · cases hg : getItem db iid with
      | none => simp [place_order, h0, hg]
      | some item =>
        by_cases hc : (!item.available || decide (item.quantity < quantity?.getD 1)) = true
        · simp [place_order, h0, hg, hc]
        · exfalso
          have hcf := Bool.eq_false_iff.mpr hc
          simp [place_order, h0, hg, hcf] at h

/-- Witness for `failed_place_order_is_noop`: ordering quantity 5 against the
item `{id: 1, quantity: 2, available: true}` fails and changes nothing. -/
theorem failed_place_order_is_noop_witness :
    (place_order lowStockDB 0 1 (some 1) (some 5)).db = lowStockDB ∧
    (place_order lowStockDB 0 1 (some 1) (some 5)).trace = [] :=
  failed_place_order_is_noop lowStockDB 0 1 (some 1) (some 5) notAvailableErr (by decide)

/-- C3 (status: confirmed).  After every successful `place_order`, the mutated
catalog row satisfies `available == (quantity > 0)`: the admission check
requires `available` to have been `true` and the new quantity to be
nonnegative, and lines 215-216 clear the flag exactly when the new quantity
reaches zero. -/
theorem place_order_availability_invariant (db : DB) (now student_id : Nat)
    (iid : Int) (quantity? : Option Int) (oid : Nat)
    (h : (place_order db now student_id (some iid) quantity?).response = .ok oid) :
    ∀ it ∈ (place_order db now student_id (some iid) quantity?).db.items,
      (it.id : Int) = iid → it.available = decide (0 < it.quantity) := by
  by_cases h0 : iid = 0
  · subst h0; simp [place_order] at h
  · cases hg : getItem db iid with
    | none => simp [place_order, h0, hg] at h
    | some item =>
      by_cases hc : (!item.available || decide (item.quantity < quantity?.getD 1)) = true
      · simp [place_order, h0, hg, hc] at h
      · have hcf := Bool.eq_false_iff.mpr hc
        have havail : item.available = true := by
          rcases Bool.or_eq_false_iff.mp hcf with ⟨h1, _⟩
          simpa using h1
        have hqle : quantity?.getD 1 ≤ item.quantity := by
          rcases Bool.or_eq_false_iff.mp hcf with ⟨_, h2⟩
          have := of_decide_eq_false h2
          omega
        have hitemid : (item.id : Int) = iid := by
          have := List.find?_some hg
          simpa using this
        intro it hmem hid
        simp only [place_order, h0, if_false, hg, hcf, Bool.false_eq_true, commitWrite] at hmem
        rcases List.mem_map.mp hmem with ⟨orig, horig, heq⟩
        by_cases hrepl : orig.id = (decrementItem item (quantity?.getD 1) now).id
        · rw [if_pos hrepl] at heq
          subst heq
          simp only [decrementItem]
          by_cases hz : item.quantity - quantity?.getD 1 ≤ 0
          · have : item.quantity - quantity?.getD 1 = 0 := by omega
            simp [hz, this]
          · have : 0 < item.quantity - quantity?.getD 1 := by omega
            simp [hz, havail, this]
        · rw [if_neg hrepl] at heq
          subst heq
          exfalso
          apply hrepl
          have : (orig.id : Int) = (item.id : Int) := by rw [hid, hitemid]
          have : orig.id = item.id := by exact_mod_cast this
          simpa [decrementItem] using this

/-- Witness for `place_order_availability_invariant`: ordering the full stock
of 2 leaves the item with quantity 0 and flag `false`. -/
theorem place_order_availability_invariant_witness :
    (⟨1, "tea", 5, false, 0, 4⟩ : CanteenItem) ∈
        (place_order lowStockDB 4 9 (some 1) (some 2)).db.items ∧
    (⟨1, "tea", 5, false, 0, 4⟩ : CanteenItem).available
      = decide (0 < (⟨1, "tea", 5, false, 0, 4⟩ : CanteenItem).quantity) :=
  ⟨by decide,
   place_order_availability_invariant lowStockDB 4 9 1 (some 2) 1 (by decide)
     ⟨1, "tea", 5, false, 0, 4⟩ (by decide) (by decide)⟩

/-- Closed form of `place_order` on an admitted request: with the item found,
available, and stocked at least the requested quantity, the handler returns
the fresh order id, writes back the decremented row, appends the ledger row,
and emits the broadcast. -/
theorem place_order_success_unfold (db : DB) (now student_id : Nat) (iid : Int)
    (quantity? : Option Int) (item : CanteenItem)
    (h0 : ¬(iid = 0)) (hg : getItem db iid = some item)
    (ha : item.available = true) (hq : quantity?.getD 1 ≤ item.quantity) :
    place_order db now student_id (some iid) quantity? =
      ⟨.ok db.nextOrderId,
       ⟨db.items.map (fun it =>
           if it.id = item.id then decrementItem item (quantity?.getD 1) now else it),
        db.orders ++ [⟨db.nextOrderId, student_id, item.id, quantity?.getD 1, "placed", now⟩],
        db.nextItemId, db.nextOrderId + 1⟩,
       [.appendOrder ⟨db.nextOrderId, student_id, item.id, quantity?.getD 1, "placed", now⟩,
        .emitEvent ⟨"canteen_update",
          [("action", JVal.s "order"), ("item_id", JVal.i (item.id : Int)),
           ("new_quantity", JVal.i (item.quantity - quantity?.getD 1))]⟩]⟩ := by
  have hc : (!item.available || decide (item.quantity < quantity?.getD 1)) = false := by
    simp [ha]
    omega
  simp [place_order, h0, hg, hc, commitWrite, decrementItem]

/-- Primary-key lookup after an admitted `place_order`: the ordered item's row
is the decremented one. -/
theorem getItem_after_place_order (db : DB) (now student_id : Nat) (iid : Int)
    (quantity? : Option Int) (item : CanteenItem)
    (h0 : ¬(iid = 0)) (hg : getItem db iid = some item)
    (ha : item.available = true) (hq : quantity?.getD 1 ≤ item.quantity) :
    getItem (place_order db now student_id (some iid) quantity?).db iid
      = some (decrementItem item (quantity?.getD 1) now) := by
  rw [place_order_success_unfold db now student_id iid quantity? item h0 hg ha hq]
  simp only [getItem]
  exact find?_map_update db.items iid item (decrementItem item (quantity?.getD 1) now) hg rfl

/-- C4 (status: confirmed).  A successful `place_order` produces exactly one
ledger entry — carrying the caller's account, the item id, the requested
quantity and status `"placed"` — and exactly one broadcast, and the ledger
commit precedes the broadcast in the effect trace
(src/app.py lines 217-220). -/
theorem successful_place_order_trace (db : DB) (now student_id : Nat)
    (iid : Int) (quantity? : Option Int) (oid : Nat)
    (h : (place_order db now student_id (some iid) quantity?).response = .ok oid) :
    ∃ o ev,
      (place_order db now student_id (some iid) quantity?).trace
        = [Effect.appendOrder o, Effect.emitEvent ev] ∧
      (place_order db now student_id (some iid) quantity?).db.orders = db.orders ++ [o] ∧
      o.id = oid ∧ o.student_id = student_id ∧ (o.item_id : Int) = iid ∧
      o.quantity = quantity?.getD 1 ∧ o.status = "placed" ∧
      ev.event = "canteen_update" := by
  by_cases h0 : iid = 0
  · subst h0; simp [place_order] at h
  · cases hg : getItem db iid with
    | none => simp [place_order, h0, hg] at h
    | some item =>
      by_cases hc : (!item.available || decide (item.quantity < quantity?.getD 1)) = true
      · simp [place_order, h0, hg, hc] at h
      · have hcf := Bool.eq_false_iff.mpr hc
        have hitemid : (item.id : Int) = iid := by
          have := List.find?_some hg
          simpa using this
        have hoid : oid = db.nextOrderId := by
          simp [place_order, h0, hg, hcf, commitWrite] at h
          omega
        refine ⟨⟨db.nextOrderId, student_id, item.id, quantity?.getD 1, "placed", now⟩,
      ⟨"canteen_update",
        [("action", JVal.s "order"),
         ("item_id", JVal.i ((decrementItem item (quantity?.getD 1) now).id : Int)),
         ("new_quantity", JVal.i (decrementItem item (quantity?.getD 1) now).quantity)]⟩,
      ?_, ?_, hoid.symm, rfl, by simpa [decrementItem] using hitemid, rfl, rfl, rfl⟩
        · simp [place_order, h0, hg, hcf, commitWrite, decrementItem]
        · simp [place_order, h0, hg, hcf, commitWrite, decrementItem]

/-- Witness for `successful_place_order_trace`: the scenario order of 3
against stock 5 yields the ledger append followed by the broadcast. -/
theorem successful_place_order_trace_witness :
    ∃ o ev,
      (place_order sampleDB 3 7 (some 1) (some 3)).trace
        = [Effect.appendOrder o, Effect.emitEvent ev] ∧
      (place_order sampleDB 3 7 (some 1) (some 3)).db.orders = sampleDB.orders ++ [o] ∧
      o.id = 1 ∧ o.student_id = 7 ∧ (o.item_id : Int) = 1 ∧
      o.quantity = (some (3 : Int)).getD 1 ∧ o.status = "placed" ∧
      ev.event = "canteen_update" :=
  successful_place_order_trace sampleDB 3 7 1 (some 3) 1 (by decide)

/-- Counterexample to C5: a request against the nonexistent item id 99 and a
request against the existing item 1 with insufficient stock (2 < 5) return
the one and the same structured error — HTTP 400 with message
"item not available or insufficient quantity".  The two failure kinds are not
distinguishable in the response (src/app.py lines 211-212 merge them). -/
theorem notfound_and_insufficient_same_error :
    getItem lowStockDB 99 = none ∧
    getItem lowStockDB 1 = some ⟨1, "tea", 5, true, 2, 0⟩ ∧
    (place_order lowStockDB 0 1 (some 99) (some 1)).response = .error notAvailableErr ∧
    (place_order lowStockDB 0 1 (some 1) (some 5)).response = .error notAvailableErr ∧
    (place_order lowStockDB 0 1 (some 99) (some 1)).response
      = (place_order lowStockDB 0 1 (some 1) (some 5)).response := by
  decide

/-- C5 (status: corrected).  Amended: whether the item does not exist or it
exists but is unavailable or under-stocked, `place_order` fails with the same
structured error (status 400, message "item not available or insufficient
quantity"); the two failure kinds are not distinguishable to the caller. -/
theorem place_order_failures_indistinguishable (db : DB) (now student_id : Nat)
    (iid qty : Int) (h0 : ¬(iid = 0)) :
    (getItem db iid = none →
      (place_order db now student_id (some iid) (some qty)).response
        = .error notAvailableErr) ∧
    (∀ item, getItem db iid = some item →
      item.available = false ∨ item.quantity < qty →
      (place_order db now student_id (some iid) (some qty)).response
        = .error notAvailableErr) := by
  constructor
  · intro hg
    simp [place_order, h0, hg]
  · intro item hg hcond
    have hc : (!item.available || decide (item.quantity < qty)) = true := by
      rcases hcond with h1 | h2
      · simp [h1]
      · simp [h2]
    simp [place_order, h0, hg, hc]

/-- Witness for `place_order_failures_indistinguishable` at item id 1 of the
low-stock catalog with requested quantity 5. -/
theorem place_order_failures_indistinguishable_witness :
    (getItem lowStockDB 1 = none →
      (place_order lowStockDB 0 1 (some 1) (some 5)).response
        = .error notAvailableErr) ∧
    (∀ item, getItem lowStockDB 1 = some item →
      item.available = false ∨ item.quantity < 5 →
      (place_order lowStockDB 0 1 (some 1) (some 5)).response
        = .error notAvailableErr) :=
  place_order_failures_indistinguishable lowStockDB 0 1 1 5 (by decide)

/-- Counterexample to C6: the broadcast of a successful order (src/app.py
line 220) carries only the keys `action`, `item_id` and `new_quantity` — no
field with the new availability flag is present in the payload. -/
theorem broadcast_lacks_availability_field :
    (place_order sampleDB 1 7 (some 1) (some 3)).trace
      = [Effect.appendOrder ⟨1, 7, 1, 3, "placed", 1⟩,
         Effect.emitEvent ⟨"canteen_update",
           [("action", JVal.s "order"), ("item_id", JVal.i 1),
            ("new_quantity", JVal.i 2)]⟩] ∧
    emittedKeys (place_order sampleDB 1 7 (some 1) (some 3))
      = ["action", "item_id", "new_quantity"] ∧
    ¬("new_availability" ∈ emittedKeys (place_order sampleDB 1 7 (some 1) (some 3))) ∧
    ¬("new_available" ∈ emittedKeys (place_order sampleDB 1 7 (some 1) (some 3))) ∧
    ¬("available" ∈ emittedKeys (place_order sampleDB 1 7 (some 1) (some 3))) ∧
    ¬("availability" ∈ emittedKeys (place_order sampleDB 1 7 (some 1) (some 3))) := by
  decide

/-- C6 (status: corrected).  Amended: on every successful order the single
broadcast event `canteen_update` carries the item id and the new quantity of
the mutated row, but not its new availability flag — the payload keys are
exactly `action`, `item_id` and `new_quantity`. -/
theorem broadcast_payload_fields (db : DB) (now student_id : Nat)
    (iid : Int) (quantity? : Option Int) (oid : Nat)
    (h : (place_order db now student_id (some iid) quantity?).response = .ok oid) :
    ∃ o item,
      getItem db iid = some item ∧
      (place_order db now student_id (some iid) quantity?).trace
        = [Effect.appendOrder o,
           Effect.emitEvent ⟨"canteen_update",
             [("action", JVal.s "order"),
              ("item_id", JVal.i iid),
              ("new_quantity", JVal.i (item.quantity - quantity?.getD 1))]⟩] ∧
      emittedKeys (place_order db now student_id (some iid) quantity?)
        = ["action", "item_id", "new_quantity"] := by
  by_cases h0 : iid = 0
  · subst h0
    simp [place_order] at h
  · cases hg : getItem db iid with
    | none => simp [place_order, h0, hg] at h
    | some item =>
      by_cases hc : (!item.available || decide (item.quantity < quantity?.getD 1)) = true
      · simp [place_order, h0, hg, hc] at h
      · have hcf := Bool.eq_false_iff.mpr hc
        have havail : item.available = true := by
          rcases Bool.or_eq_false_iff.mp hcf with ⟨h1, _⟩
          simpa using h1
        have hqle : quantity?.getD 1 ≤ item.quantity := by
          rcases Bool.or_eq_false_iff.mp hcf with ⟨_, h2⟩
          have := of_decide_eq_false h2
          omega
        have hitemid : (item.id : Int) = iid := by
          have := List.find?_some hg
          simpa using this
        have hu := place_order_success_unfold db now student_id iid quantity? item h0 hg havail hqle
        refine ⟨⟨db.nextOrderId, student_id, item.id, quantity?.getD 1, "placed", now⟩,
          item, rfl, ?_, ?_⟩
        · rw [hu, hitemid]
        · rw [hu]
          simp [emittedKeys]

/-- Witness for `broadcast_payload_fields`: the scenario order of 3 against
stock 5. -/
theorem broadcast_payload_fields_witness :
    ∃ o item,
      getItem sampleDB 1 = some item ∧
      (place_order sampleDB 1 7 (some 1) (some 3)).trace
        = [Effect.appendOrder o,
           Effect.emitEvent ⟨"canteen_update",
             [("action", JVal.s "order"),
              ("item_id", JVal.i 1),
              ("new_quantity", JVal.i (item.quantity - (some (3 : Int)).getD 1))]⟩] ∧
      emittedKeys (place_order sampleDB 1 7 (some 1) (some 3))
        = ["action", "item_id", "new_quantity"] :=
  broadcast_payload_fields sampleDB 1 7 1 (some 3) 1 (by decide)

/-- C9 (status: confirmed).  `place_order` never checks that the requested
quantity is at least 1 (src/app.py line 207 only applies the default 1): a
request for quantity 0 against an available item succeeds, records a ledger
row of quantity 0 and leaves the stored quantity unchanged, and a request for
a negative quantity succeeds and increases the stored quantity. -/
theorem place_order_no_min_quantity (db : DB) (now student_id : Nat) (n : Int)
    (iid : Int) (item : CanteenItem)
    (h0 : ¬(iid = 0)) (hg : getItem db iid = some item)
    (ha : item.available = true) (hq : 1 ≤ item.quantity) (hn : n < 0) :
    ((place_order db now student_id (some iid) (some 0)).response = .ok db.nextOrderId ∧
     (place_order db now student_id (some iid) (some 0)).db.orders
       = db.orders ++ [⟨db.nextOrderId, student_id, item.id, 0, "placed", now⟩] ∧
     (∃ it', getItem (place_order db now student_id (some iid) (some 0)).db iid = some it' ∧
       it'.quantity = item.quantity)) ∧
    ((place_order db now student_id (some iid) (some n)).response = .ok db.nextOrderId ∧
     (∃ it', getItem (place_order db now student_id (some iid) (some n)).db iid = some it' ∧
       it'.quantity = item.quantity - n ∧ item.quantity < it'.quantity)) := by
  have hq0 : (some (0 : Int)).getD 1 ≤ item.quantity := by
    simp only [Option.getD_some]
    omega
  have hqn : (some n).getD 1 ≤ item.quantity := by
    simp only [Option.getD_some]
    omega
  have hu0 := place_order_success_unfold db now student_id iid (some 0) item h0 hg ha hq0
  have hun := place_order_success_unfold db now student_id iid (some n) item h0 hg ha hqn
  constructor
  · refine ⟨by simp [hu0], by simp [hu0], ?_⟩
    refine ⟨decrementItem item ((some (0 : Int)).getD 1) now,
      getItem_after_place_order db now student_id iid (some 0) item h0 hg ha hq0, ?_⟩
    simp [decrementItem]
  · refine ⟨by simp [hun], ?_⟩
    refine ⟨decrementItem item ((some n).getD 1) now,
      getItem_after_place_order db now student_id iid (some n) item h0 hg ha hqn, ?_, ?_⟩
    · simp [decrementItem]
    · simp only [decrementItem, Option.getD_some]
      omega

/-- Witness for `place_order_no_min_quantity`: item 1 with stock 5, negative
request −2. -/
theorem place_order_no_min_quantity_witness :
    ((place_order sampleDB 0 7 (some 1) (some 0)).response = .ok sampleDB.nextOrderId ∧
     (place_order sampleDB 0 7 (some 1) (some 0)).db.orders
       = sampleDB.orders ++ [⟨sampleDB.nextOrderId, 7, 1, 0, "placed", 0⟩] ∧
     (∃ it', getItem (place_order sampleDB 0 7 (some 1) (some 0)).db 1 = some it' ∧
       it'.quantity = 5)) ∧
    ((place_order sampleDB 0 7 (some 1) (some (-2))).response = .ok sampleDB.nextOrderId ∧
     (∃ it', getItem (place_order sampleDB 0 7 (some 1) (some (-2))).db 1 = some it' ∧
       it'.quantity = 5 - (-2) ∧ (5 : Int) < it'.quantity)) :=
  place_order_no_min_quantity sampleDB 0 7 (-2) 1 ⟨1, "samosa", 10, true, 5, 0⟩
    (by decide) (by decide) (by decide) (by decide) (by decide)

/-- A ledger with three orders, two of them owned by account 7, with
distinct creation timestamps. -/
def historyDB : DB :=
  ⟨[⟨1, "samosa", 10, true, 5, 0⟩],
   [⟨1, 7, 1, 2, "placed", 10⟩, ⟨2, 8, 1, 1, "placed", 20⟩, ⟨3, 7, 1, 3, "placed", 30⟩],
   2, 4⟩

/-- C8 (status: confirmed).  `order_history` returns exactly the orders owned
by the requesting account — as a permutation of their summaries — sorted
newest first by creation timestamp, and every returned summary carries the
order id, the referenced item (id and name, or `None` if the row is gone),
the quantity, the status and the creation time of its ledger row
(src/app.py lines 223-238). -/
theorem order_history_correct (db : DB) (student_id : Nat) :
    List.Perm (order_history db student_id)
      ((db.orders.filter (fun o => o.student_id == student_id)).map (orderSummary db)) ∧
    List.Sorted (fun a b : OrderSummary => b.created_at ≤ a.created_at)
      (order_history db student_id) ∧
    ∀ s ∈ order_history db student_id,
      ∃ o, o ∈ db.orders ∧ o.student_id = student_id ∧ s = orderSummary db o ∧
        s.order_id = o.id ∧ s.quantity = o.quantity ∧ s.status = o.status ∧
        s.created_at = o.created_at ∧
        s.item = (db.items.find? (fun it => it.id = o.item_id)).map
          (fun it => (it.id, it.name)) := by
  refine ⟨?_, ?_, ?_⟩
  · exact (List.perm_insertionSort newestFirst
      (db.orders.filter (fun o => o.student_id == student_id))).map (orderSummary db)
  · have hs : List.Sorted newestFirst
        (List.insertionSort newestFirst
          (db.orders.filter (fun o => o.student_id == student_id))) :=
      List.sorted_insertionSort newestFirst _
    rw [order_history, List.Sorted, List.pairwise_map]
    exact hs
  · intro s hs
    simp only [order_history] at hs
    rcases List.mem_map.mp hs with ⟨o, ho, rfl⟩
    have ho' : o ∈ db.orders.filter (fun o => o.student_id == student_id) :=
      (List.perm_insertionSort newestFirst _).mem_iff.mp ho
    have hmem := List.mem_filter.mp ho'
    exact ⟨o, hmem.1, by simpa using hmem.2, rfl, rfl, rfl, rfl, rfl, rfl⟩

/-- Witness for `order_history_correct` on a concrete three-order ledger and
account 7. -/
theorem order_history_correct_witness :
    List.Perm (order_history historyDB 7)
      ((historyDB.orders.filter (fun o => o.student_id == 7)).map (orderSummary historyDB)) ∧
    List.Sorted (fun a b : OrderSummary => b.created_at ≤ a.created_at)
      (order_history historyDB 7) ∧
    ∀ s ∈ order_history historyDB 7,
      ∃ o, o ∈ historyDB.orders ∧ o.student_id = 7 ∧ s = orderSummary historyDB o ∧
        s.order_id = o.id ∧ s.quantity = o.quantity ∧ s.status = o.status ∧
        s.created_at = o.created_at ∧
        s.item = (historyDB.items.find? (fun it => it.id = o.item_id)).map
          (fun it => (it.id, it.name)) :=
  order_history_correct historyDB 7
